import Mathlib

/-!
Verification of finpulse (aadheeshn26/finpulse) against its specification.

The development shallowly embeds the parts of the Python code the claims
refer to:

- ticker detection from src/finpulse/scrapers/base_scraper.py
  (method _detect_ticker_symbols),
- request bookkeeping from the same file (methods _make_request,
  start_scraping and the stats dictionary set up in the constructor,
  together with the urllib3 retry policy configured in _create_session),
- sentiment analysis from src/finpulse/sentiment/analyzer.py
  (methods analyze_text, _analyze_vader, _analyze_textblob).

Strings are modelled as Lean Strings and lists of characters; the ASCII
fragment of the Python regular-expression character classes is used, which
covers all concrete inputs appearing in the spec.  Rationals stand in for
Python floats, and external library calls (VADER, TextBlob, the HTTP
session) are parameters of the embedding.
-/

namespace FinPulse

/-!  Character classes.  ASCII models of the regex classes used by
_detect_ticker_symbols: uppercase letters A..Z, word characters for the
word-boundary assertion, and whitespace. -/

def isUpperLetter (c : Char) : Bool :=
  'A' ≤ c && c ≤ 'Z'

def isWordChar (c : Char) : Bool :=
  c.isAlpha || c.isDigit || c = '_'

def isSpaceChar (c : Char) : Bool :=
  c = ' ' || c = '\t' || c = '\n' || c = '\r' || c = '\x0b' || c = '\x0c'

/-- Greedy match of at most n uppercase letters at the head of the list;
returns the matched run and the remainder.  This models the greedy
quantifier on the group in the regex patterns of _detect_ticker_symbols. -/
def takeUpper : Nat → List Char → List Char × List Char
  | _, [] => ([], [])
  | 0, cs => ([], cs)
  | n + 1, c :: cs =>
    if isUpperLetter c then
      let p := takeUpper n cs
      (c :: p.1, p.2)
    else ([], c :: cs)

/-- Match a literal list of characters at the head of the input, returning
the remainder on success. -/
def dropLit : List Char → List Char → Option (List Char)
  | [], cs => some cs
  | _ :: _, [] => none
  | l :: ls, c :: cs => if c = l then dropLit ls cs else none

/-- Scanner for the first ticker pattern of _detect_ticker_symbols:
a dollar sign followed by one to five uppercase letters (greedy).
Models re.findall: scan left to right, and after a match resume after the
matched text.  The fuel argument bounds the recursion; length + 1 fuel is
always enough because every step consumes at least one character. -/
def findP1 : Nat → List Char → List (List Char)
  | 0, _ => []
  | _ + 1, [] => []
  | fuel + 1, c :: cs =>
    if c = '$' then
      let p := takeUpper 5 cs
      if p.1 = [] then findP1 fuel cs
      else p.1 :: findP1 fuel p.2
    else findP1 fuel cs

/-- Match of the second pattern at the current position: a word boundary
(handled by the caller), one to five uppercase letters (greedy, with
backtracking collapsed: the run of uppercase letters must have length at
most five, since a longer run leaves a letter after any shorter choice of
the group and the pattern then requires whitespace), then one or more
whitespace characters, then the lowercase literal stock.  The literal is
lowercase in the source although the pattern is applied to the upper-cased
text, so this match can in fact never succeed. -/
def matchP2 (cs : List Char) : Option (List Char × List Char) :=
  let t := cs.takeWhile isUpperLetter
  if t = [] then none
  else if 5 < t.length then none
  else
    let rest := cs.dropWhile isUpperLetter
    let sp := rest.takeWhile isSpaceChar
    if sp = [] then none
    else
      match dropLit ['s', 't', 'o', 'c', 'k'] (rest.dropWhile isSpaceChar) with
      | some r => some (t, r)
      | none => none

/-- Scanner for the second pattern, tracking whether the previous character
is a word character so the word-boundary assertion can be evaluated. -/
def findP2 : Nat → Bool → List Char → List (List Char)
  | 0, _, _ => []
  | _ + 1, _, [] => []
  | fuel + 1, prevW, c :: cs =>
    if prevW then findP2 fuel (isWordChar c) cs
    else
      match matchP2 (c :: cs) with
      | some p => p.1 :: findP2 fuel true p.2
      | none => findP2 fuel (isWordChar c) cs

/-- Match either exchange-prefix literal of the third pattern. -/
def matchExchange (cs : List Char) : Option (List Char) :=
  match dropLit ['N', 'A', 'S', 'D', 'A', 'Q', ':'] cs with
  | some rest => some rest
  | none => dropLit ['N', 'Y', 'S', 'E', ':'] cs

/-- Match of the third pattern at the current position: an exchange prefix
marker followed by one to five uppercase letters (greedy); only the second
group, the symbol, is kept, as the Python code keeps match[-1]. -/
def matchP3 (cs : List Char) : Option (List Char × List Char) :=
  match matchExchange cs with
  | none => none
  | some rest =>
    let p := takeUpper 5 rest
    if p.1 = [] then none else some (p.1, p.2)

/-- Scanner for the third pattern, with the word-boundary flag. -/
def findP3 : Nat → Bool → List Char → List (List Char)
  | 0, _, _ => []
  | _ + 1, _, [] => []
  | fuel + 1, prevW, c :: cs =>
    if prevW then findP3 fuel (isWordChar c) cs
    else
      match matchP3 (c :: cs) with
      | some p => p.1 :: findP3 fuel true p.2
      | none => findP3 fuel (isWordChar c) cs

/-- The fixed stop-list of common English words filtered out of the ticker
candidates (false_positives in _detect_ticker_symbols; the source set
literal lists ITS twice, which is harmless for membership). -/
def false_positives : List String :=
  ["THE", "AND", "FOR", "ARE", "BUT", "NOT", "YOU", "ALL", "CAN", "HER",
   "WAS", "ONE", "OUR", "OUT", "DAY", "GET", "HAS", "HIM", "HIS", "HOW",
   "ITS", "MAY", "NEW", "NOW", "OLD", "SEE", "TWO", "WHO", "BOY", "DID",
   "ITS", "LET", "PUT", "SAY", "SHE", "TOO", "USE"]

/-- Executable lexicographic comparison of character lists by code point,
the order Python's sorted uses on strings. -/
def listLeb : List Char → List Char → Bool
  | [], _ => true
  | _ :: _, [] => false
  | a :: as, b :: bs => if a < b then true else if b < a then false else listLeb as bs

/-- Executable lexicographic comparison of strings. -/
def strLeb (s t : String) : Bool :=
  listLeb s.data t.data

/-- Embedding of _detect_ticker_symbols: upper-case the text, run the three
findall scanners, pool the matches into a set, drop stop-list words and
candidates longer than five characters, and return the sorted list. -/
def detect_ticker_symbols (text : String) : List String :=
  let up := text.data.map Char.toUpper
  let fuel := up.length + 1
  let tickers : List String :=
    ((findP1 fuel up).map List.asString ++
     (findP2 fuel false up).map List.asString ++
     (findP3 fuel false up).map List.asString).dedup
  let filtered :=
    tickers.filter fun t => !(false_positives.contains t) && decide (t.length ≤ 5)
  List.insertionSort (fun a b => strLeb a b = true) filtered

/-!  Sentiment analysis (src/finpulse/sentiment/analyzer.py).  The VADER and
TextBlob models are external libraries; their outputs (polarity scores for
VADER, polarity and subjectivity for TextBlob) are parameters of the
embedding.  Python floats are modelled as rationals. -/

structure VaderScores where
  pos : ℚ
  neg : ℚ
  neu : ℚ
  compound : ℚ

structure SentimentScores where
  compound_score : ℚ
  positive_score : ℚ
  negative_score : ℚ
  neutral_score : ℚ
  sentiment_label : String
  confidence : ℚ
  subjectivity : Option ℚ

/-- Embedding of _analyze_vader: thresholds the compound score at 0.05 to
pick the label; the VADER dictionary has no subjectivity key. -/
def analyze_vader (scores : VaderScores) : SentimentScores :=
  { compound_score := scores.compound
    positive_score := scores.pos
    negative_score := scores.neg
    neutral_score := scores.neu
    sentiment_label :=
      if scores.compound ≥ 5 / 100 then "positive"
      else if scores.compound ≤ -(5 / 100) then "negative"
      else "neutral"
    confidence := max scores.pos (max scores.neg scores.neu)
    subjectivity := none }

/-- Embedding of _analyze_textblob: converts TextBlob polarity and
subjectivity to the VADER-like bucket format, normalizing the three buckets
by their sum when it is positive, and thresholds polarity at 0.1 for the
label. -/
def analyze_textblob (polarity subjectivity : ℚ) : SentimentScores :=
  let pos_score : ℚ := if polarity > 0 then polarity else 0
  let neg_score : ℚ := if polarity > 0 then 0 else |polarity|
  let neu_score : ℚ := 1 - |polarity|
  let total := pos_score + neg_score + neu_score
  let pos_norm := if total > 0 then pos_score / total else pos_score
  let neg_norm := if total > 0 then neg_score / total else neg_score
  let neu_norm := if total > 0 then neu_score / total else neu_score
  { compound_score := polarity
    positive_score := pos_norm
    negative_score := neg_norm
    neutral_score := neu_norm
    sentiment_label :=
      if polarity ≥ 1 / 10 then "positive"
      else if polarity ≤ -(1 / 10) then "negative"
      else "neutral"
    confidence := |polarity|
    subjectivity := some subjectivity }

/-- Model of Python str.split() with no arguments, as used for word_count in
analyze_text: the maximal runs of non-whitespace characters, empty runs
discarded.  Fuel as in the scanners; length + 1 is always enough. -/
def py_split : Nat → List Char → List (List Char)
  | 0, _ => []
  | _ + 1, [] => []
  | fuel + 1, c :: cs =>
    if isSpaceChar c then py_split fuel cs
    else
      (c :: cs).takeWhile (fun d => !isSpaceChar d) ::
        py_split fuel ((c :: cs).dropWhile (fun d => !isSpaceChar d))

/-- The dictionary returned by analyze_text: the model result together with
the metadata added afterwards.  processing_time_ms is wall-clock time and is
not modelled. -/
structure AnalysisOutput where
  scores : SentimentScores
  model_name : String
  text_length : Nat
  word_count : Nat

/-- Embedding of SentimentAnalyzer.analyze_text: dispatch on the model name,
raising ValueError (modelled as Except.error) for an unknown model, and
attach the metadata. -/
def analyze_text (vader_model : String → VaderScores)
    (textblob_model : String → ℚ × ℚ) (text : String) (model : String) :
    Except String AnalysisOutput :=
  if model = "vader" then
    Except.ok
      { scores := analyze_vader (vader_model text)
        model_name := model
        text_length := text.length
        word_count := (py_split (text.data.length + 1) text.data).length }
  else if model = "textblob" then
    Except.ok
      { scores := analyze_textblob (textblob_model text).1 (textblob_model text).2
        model_name := model
        text_length := text.length
        word_count := (py_split (text.data.length + 1) text.data).length }
  else Except.error ("Unknown model: " ++ model)

/-!  Scraper statistics and request bookkeeping
(src/finpulse/scrapers/base_scraper.py). -/

structure ScraperStats where
  requests_made : Nat
  successful_requests : Nat
  failed_requests : Nat
  items_scraped : Nat
  start_time : Option Nat
  end_time : Option Nat
deriving DecidableEq

/-- The stats dictionary as initialized in BaseScraper.__init__. -/
def init_stats : ScraperStats :=
  { requests_made := 0, successful_requests := 0, failed_requests := 0,
    items_scraped := 0, start_time := none, end_time := none }

/-- The status_forcelist of the urllib3 Retry strategy configured in
_create_session. -/
def retry_forcelist : List Nat := [429, 500, 502, 503, 504]

/-- Model of the HTTP session configured in _create_session: urllib3 retries
a request while the response status is in the forcelist, at most the
configured number of times (Retry total), and raises a RequestException
(modelled as none) when retries are exhausted or the response sequence ends
(a network error).  A response status outside the forcelist is returned to
the caller. -/
def session_request (retries : Nat) (responses : List Nat) : Option Nat :=
  match responses with
  | [] => none
  | s :: rest =>
    if s ∈ retry_forcelist then
      match retries with
      | 0 => none
      | r + 1 => session_request r rest
    else some s

/-- Embedding of _make_request over the session model: count the logical
request, send it through the session, then record success (status 200) or
failure (any other status, or an exception from the session) and return the
response or None accordingly.  The rate-limiting sleep is wall-clock
behaviour with no state effect and is not modelled. -/
def make_request (max_retries : Nat) (responses : List Nat)
    (stats : ScraperStats) : Option Nat × ScraperStats :=
  let stats1 := { stats with requests_made := stats.requests_made + 1 }
  match session_request max_retries responses with
  | some code =>
    if code = 200 then
      (some code, { stats1 with successful_requests := stats1.successful_requests + 1 })
    else
      (none, { stats1 with failed_requests := stats1.failed_requests + 1 })
  | none => (none, { stats1 with failed_requests := stats1.failed_requests + 1 })

/-- Embedding of start_scraping: it records the start time in the stats
dictionary; the logging call has no state effect. -/
def start_scraping (now : Nat) (stats : ScraperStats) : ScraperStats :=
  { stats with start_time := some now }

/-- A sequence of _make_request calls on one scraper instance, starting from
the stats the constructor set up. -/
def run_calls (max_retries : Nat) (calls : List (List Nat)) : ScraperStats :=
  calls.foldl (fun st rs => (make_request max_retries rs st).2) init_stats

/-!  Supporting lemmas for the ticker detector. -/

theorem takeUpper_fst_upper : ∀ n cs, ∀ c ∈ (takeUpper n cs).1, isUpperLetter c = true := by
  intro n
  induction n with
  | zero => intro cs c hc; cases cs <;> simp [takeUpper] at hc
  | succ n ih =>
    intro cs c hc
    cases cs with
    | nil => simp [takeUpper] at hc
    | cons a as =>
      by_cases h : isUpperLetter a = true
      · simp [takeUpper, h] at hc
        rcases hc with rfl | hc
        · exact h
        · exact ih as c hc
      · simp [takeUpper, h] at hc

theorem takeUpper_fst_length : ∀ n cs, (takeUpper n cs).1.length ≤ n := by
  intro n
  induction n with
  | zero => intro cs; cases cs <;> simp [takeUpper]
  | succ n ih =>
    intro cs
    cases cs with
    | nil => simp [takeUpper]
    | cons a as =>
      by_cases h : isUpperLetter a = true
      · simpa [takeUpper, h] using ih as
      · simp [takeUpper, h]

theorem mem_findP1 : ∀ fuel l t, t ∈ findP1 fuel l →
    t ≠ [] ∧ t.length ≤ 5 ∧ ∀ c ∈ t, isUpperLetter c = true := by
  intro fuel
  induction fuel with
  | zero => intro l t ht; simp [findP1] at ht
  | succ fuel ih =>
    intro l t ht
    cases l with
    | nil => simp [findP1] at ht
    | cons c cs =>
      by_cases hc : c = '$'
      · by_cases hp : (takeUpper 5 cs).1 = []
        · rw [findP1, if_pos hc, if_pos hp] at ht
          exact ih cs t ht
        · rw [findP1, if_pos hc, if_neg hp] at ht
          rcases List.mem_cons.mp ht with rfl | ht
          · exact ⟨hp, takeUpper_fst_length 5 cs, takeUpper_fst_upper 5 cs⟩
          · exact ih _ t ht
      · rw [findP1, if_neg hc] at ht
        exact ih cs t ht

theorem matchP2_some : ∀ cs t r, matchP2 cs = some (t, r) →
    t ≠ [] ∧ t.length ≤ 5 ∧ ∀ c ∈ t, isUpperLetter c = true := by
  intro cs t r h
  unfold matchP2 at h
  by_cases h1 : cs.takeWhile isUpperLetter = []
  · simp [h1] at h
  · by_cases h2 : 5 < (cs.takeWhile isUpperLetter).length
    · simp [h1, h2] at h
    · simp only [h1, h2, if_false, ite_false] at h
      by_cases h3 : (cs.dropWhile isUpperLetter).takeWhile isSpaceChar = []
      · rw [if_pos h3] at h; exact absurd h (by simp)
      · rw [if_neg h3] at h
        cases h4 : dropLit ['s', 't', 'o', 'c', 'k']
            ((cs.dropWhile isUpperLetter).dropWhile isSpaceChar) with
        | none => rw [h4] at h; exact absurd h (by simp)
        | some r2 =>
          rw [h4] at h
          simp only [Option.some.injEq, Prod.mk.injEq] at h
          obtain ⟨rfl, rfl⟩ := h
          refine ⟨h1, Nat.not_lt.mp h2, ?_⟩
          intro c hc
          exact List.mem_takeWhile_imp hc

theorem matchP3_some : ∀ cs t r, matchP3 cs = some (t, r) →
    t ≠ [] ∧ t.length ≤ 5 ∧ ∀ c ∈ t, isUpperLetter c = true := by
  intro cs t r h
  cases hex : matchExchange cs with
  | none => simp only [matchP3, hex] at h; exact absurd h (by simp)
  | some rest =>
    simp only [matchP3, hex] at h
    by_cases hp : (takeUpper 5 rest).1 = []
    · rw [if_pos hp] at h; exact absurd h (by simp)
    · rw [if_neg hp] at h
      simp only [Option.some.injEq, Prod.mk.injEq] at h
      obtain ⟨rfl, rfl⟩ := h
      exact ⟨hp, takeUpper_fst_length 5 rest, takeUpper_fst_upper 5 rest⟩

theorem mem_findP2 : ∀ fuel b l t, t ∈ findP2 fuel b l →
    t ≠ [] ∧ t.length ≤ 5 ∧ ∀ c ∈ t, isUpperLetter c = true := by
  intro fuel
  induction fuel with
  | zero => intro b l t ht; simp [findP2] at ht
  | succ fuel ih =>
    intro b l t ht
    cases l with
    | nil => simp [findP2] at ht
    | cons c cs =>
      by_cases hb : b = true
      · subst hb; rw [findP2, if_pos rfl] at ht; exact ih _ cs t ht
      · replace hb : b = false := by cases b; rfl; exact absurd rfl hb
        subst hb
        rw [findP2, if_neg (by simp)] at ht
        cases hm : matchP2 (c :: cs) with
        | none => rw [hm] at ht; exact ih _ cs t ht
        | some p =>
          rw [hm] at ht
          rcases List.mem_cons.mp ht with rfl | ht
          · exact matchP2_some _ _ _ hm
          · exact ih _ _ t ht

theorem mem_findP3 : ∀ fuel b l t, t ∈ findP3 fuel b l →
    t ≠ [] ∧ t.length ≤ 5 ∧ ∀ c ∈ t, isUpperLetter c = true := by
  intro fuel
  induction fuel with
  | zero => intro b l t ht; simp [findP3] at ht
  | succ fuel ih =>
    intro b l t ht
    cases l with
    | nil => simp [findP3] at ht
    | cons c cs =>
      by_cases hb : b = true
      · subst hb; rw [findP3, if_pos rfl] at ht; exact ih _ cs t ht
      · replace hb : b = false := by cases b; rfl; exact absurd rfl hb
        subst hb
        rw [findP3, if_neg (by simp)] at ht
        cases hm : matchP3 (c :: cs) with
        | none => rw [hm] at ht; exact ih _ cs t ht
        | some p =>
          rw [hm] at ht
          rcases List.mem_cons.mp ht with rfl | ht
          · exact matchP3_some _ _ _ hm
          · exact ih _ _ t ht

theorem listLeb_iff : ∀ as bs : List Char,
    listLeb as bs = true ↔ ¬ List.Lex (· < ·) bs as := by
  intro as
  induction as with
  | nil =>
    intro bs
    simp only [listLeb]
    constructor
    · intro _ hlex; cases hlex
    · intro _; trivial
  | cons a as ih =>
    intro bs
    cases bs with
    | nil =>
      simp only [listLeb]
      constructor
      · intro h; exact absurd h (by simp)
      · intro h; exact absurd List.Lex.nil h
    | cons b bs =>
      by_cases hab : a < b
      · simp only [listLeb, if_pos hab]
        constructor
        · intro _ hlex
          cases hlex with
          | cons h => exact absurd hab (lt_irrefl _)
          | rel h => exact absurd hab (lt_asymm h)
        · intro _; trivial
      · by_cases hba : b < a
        · simp only [listLeb, if_neg hab, if_pos hba]
          constructor
          · intro h; exact absurd h (by simp)
          · intro h; exact absurd (List.Lex.rel hba) h
        · have heq : a = b := le_antisymm (not_lt.mp hba) (not_lt.mp hab)
          subst heq
          simp only [listLeb, if_neg hab, if_neg hba]
          rw [ih bs]
          constructor
          · intro h hlex
            cases hlex with
            | cons h2 => exact h h2
            | rel h2 => exact absurd h2 (lt_irrefl a)
          · intro h h2; exact h (List.Lex.cons h2)

theorem strLeb_iff (s t : String) : strLeb s t = true ↔ s ≤ t := by
  rw [String.le_iff_toList_le]
  have h1 : (s.toList ≤ t.toList) ↔ ¬ t.toList < s.toList := not_lt.symm
  rw [h1]
  have h2 : (t.toList < s.toList) ↔ List.Lex (· < ·) t.data s.data := Iff.rfl
  rw [h2]
  exact listLeb_iff s.data t.data

theorem strLeb_total : ∀ s t : String, strLeb s t = true ∨ strLeb t s = true := by
  intro s t
  rcases le_total s t with h | h
  · exact Or.inl ((strLeb_iff s t).mpr h)
  · exact Or.inr ((strLeb_iff t s).mpr h)

theorem strLeb_trans : ∀ s t u : String,
    strLeb s t = true → strLeb t u = true → strLeb s u = true := by
  intro s t u h1 h2
  exact (strLeb_iff s u).mpr (le_trans ((strLeb_iff s t).mp h1) ((strLeb_iff t u).mp h2))

/-!  Supporting lemmas for the scraper and sentiment embeddings. -/

theorem session_request_all_503 : ∀ retries responses,
    (∀ s ∈ responses, s = 503) → session_request retries responses = none := by
  intro retries
  induction retries with
  | zero =>
    intro responses h
    cases responses with
    | nil => rfl
    | cons s rest =>
      have hs : s = 503 := h s (by simp)
      subst hs
      rfl
  | succ r ih =>
    intro responses h
    cases responses with
    | nil => rfl
    | cons s rest =>
      have hs : s = 503 := h s (by simp)
      subst hs
      have hstep : session_request (r + 1) (503 :: rest) = session_request r rest := rfl
      rw [hstep]
      exact ih rest (fun x hx => h x (List.mem_cons_of_mem _ hx))

theorem make_request_step (mr : Nat) (rs : List Nat) (stats : ScraperStats) :
    ((make_request mr rs stats).2).requests_made = stats.requests_made + 1 ∧
    ((((make_request mr rs stats).2).successful_requests = stats.successful_requests + 1 ∧
      ((make_request mr rs stats).2).failed_requests = stats.failed_requests) ∨
     (((make_request mr rs stats).2).failed_requests = stats.failed_requests + 1 ∧
      ((make_request mr rs stats).2).successful_requests = stats.successful_requests)) := by
  cases h : session_request mr rs with
  | none => simp [make_request, h]
  | some code =>
    by_cases h2 : code = 200
    · simp [make_request, h, h2]
    · simp [make_request, h, h2]

theorem run_calls_aux (mr : Nat) : ∀ (calls : List (List Nat)) (stats : ScraperStats),
    stats.requests_made = stats.successful_requests + stats.failed_requests →
    (calls.foldl (fun st rs => (make_request mr rs st).2) stats).requests_made =
      (calls.foldl (fun st rs => (make_request mr rs st).2) stats).successful_requests +
      (calls.foldl (fun st rs => (make_request mr rs st).2) stats).failed_requests := by
  intro calls
  induction calls with
  | nil => intro stats h; simpa using h
  | cons rs rest ih =>
    intro stats h
    simp only [List.foldl_cons]
    apply ih
    obtain ⟨h1, h2⟩ := make_request_step mr rs stats
    rcases h2 with ⟨hs, hf⟩ | ⟨hf, hs⟩ <;> rw [h1, hs, hf] <;> omega

theorem py_split_all_space : ∀ fuel cs, (∀ c ∈ cs, isSpaceChar c = true) →
    py_split fuel cs = [] := by
  intro fuel
  induction fuel with
  | zero => intro cs _; rfl
  | succ fuel ih =>
    intro cs h
    cases cs with
    | nil => rfl
    | cons c cs2 =>
      rw [py_split, if_pos (h c (by simp))]
      exact ih cs2 (fun x hx => h x (List.mem_cons_of_mem _ hx))

/-!  The claims. -/

/-- C1: for every input text, the list returned by ticker detection
(_detect_ticker_symbols) contains no duplicates, every element is an
uppercase alphabetic string of length between 1 and 5, no element belongs
to the fixed stop-list of common English words, and the list is sorted
lexicographically. -/
theorem c1_detect_ticker_invariants (text : String) :
    (detect_ticker_symbols text).Sorted (· ≤ ·) ∧
    (detect_ticker_symbols text).Nodup ∧
    ∀ s ∈ detect_ticker_symbols text,
      1 ≤ s.length ∧ s.length ≤ 5 ∧ (∀ c ∈ s.data, isUpperLetter c = true) ∧
      s ∉ false_positives := by
  simp only [detect_ticker_symbols]
  haveI : IsTotal String (fun a b => strLeb a b = true) := ⟨strLeb_total⟩
  haveI : IsTrans String (fun a b => strLeb a b = true) := ⟨strLeb_trans⟩
  refine ⟨?_, ?_, ?_⟩
  · exact List.Pairwise.imp (fun h => (strLeb_iff _ _).mp h)
      (List.sorted_insertionSort _ _)
  · exact ((List.perm_insertionSort _ _).symm.nodup ((List.nodup_dedup _).filter _))
  · intro s hs
    have hs2 := (List.perm_insertionSort (fun a b => strLeb a b = true) _).mem_iff.mp hs
    have hs3 := List.mem_filter.mp hs2
    have hpool := List.mem_dedup.mp hs3.1
    have hpred := hs3.2
    simp only [Bool.and_eq_true, Bool.not_eq_true', decide_eq_true_eq] at hpred
    have hnotfp : s ∉ false_positives := by
      intro hmem
      have := hpred.1
      simp at this
      exact this hmem
    have hfrom : ∃ t, (t ≠ [] ∧ t.length ≤ 5 ∧ ∀ c ∈ t, isUpperLetter c = true) ∧
        s = List.asString t := by
      rcases List.mem_append.mp hpool with h12 | h3
      · rcases List.mem_append.mp h12 with h1 | h2
        · rcases List.mem_map.mp h1 with ⟨t, ht, rfl⟩
          exact ⟨t, mem_findP1 _ _ _ ht, rfl⟩
        · rcases List.mem_map.mp h2 with ⟨t, ht, rfl⟩
          exact ⟨t, mem_findP2 _ _ _ _ ht, rfl⟩
      · rcases List.mem_map.mp h3 with ⟨t, ht, rfl⟩
        exact ⟨t, mem_findP3 _ _ _ _ ht, rfl⟩
    obtain ⟨t, ⟨hne, hlen, hup⟩, rfl⟩ := hfrom
    refine ⟨?_, ?_, ?_, hnotfp⟩
    · show 1 ≤ t.length
      exact Nat.succ_le_of_lt (List.length_pos.mpr hne)
    · exact hlen
    · show ∀ c ∈ t, isUpperLetter c = true
      exact hup

/-- C2: on the text about Apple beating on iPhone sales, ticker detection
returns exactly the sorted list AAPL, MSFT. -/
theorem c2_detect_ticker_example :
    detect_ticker_symbols
        "Apple ($AAPL) beats on strong iPhone sales, NASDAQ:MSFT also rallies" =
      ["AAPL", "MSFT"] := by decide

/-- C3: the claim says a bare 1-5 letter token followed by the word stock is
detected, e.g. that the input consisting of AAPL, a space and the word stock
yields a result containing AAPL.  The code contradicts this (and its own
comment documenting the pattern): the second regex pattern spells the
literal in lowercase but is matched against the upper-cased text, so it can
never fire, and the detector returns the empty list on this input. -/
theorem c3_stock_pattern_failing_input :
    detect_ticker_symbols "AAPL stock" = [] := by decide

/-- C4: the textblob conversion assigns the full polarity magnitude to the
positive bucket when polarity is positive and to the negative bucket
otherwise, gives the neutral bucket one minus the absolute polarity, and
after normalization the three buckets sum to exactly one; at polarity zero
all mass is neutral, and a polarity of at least 0.1 is labelled positive. -/
theorem c4_textblob_conversion (p s : ℚ) (h1 : -1 ≤ p) (h2 : p ≤ 1) :
    ((analyze_textblob p s).positive_score + (analyze_textblob p s).negative_score +
      (analyze_textblob p s).neutral_score = 1) ∧
    (p > 0 → (analyze_textblob p s).positive_score = p ∧
      (analyze_textblob p s).negative_score = 0) ∧
    (¬ p > 0 → (analyze_textblob p s).negative_score = |p| ∧
      (analyze_textblob p s).positive_score = 0) ∧
    (analyze_textblob p s).neutral_score = 1 - |p| ∧
    (p = 0 → (analyze_textblob p s).neutral_score = 1 ∧
      (analyze_textblob p s).positive_score = 0 ∧
      (analyze_textblob p s).negative_score = 0) ∧
    (p ≥ 1 / 10 → (analyze_textblob p s).sentiment_label = "positive") := by
  have htot : (if p > 0 then p else 0) + (if p > 0 then 0 else |p|) + (1 - |p|) = 1 := by
    by_cases hp : p > 0
    · rw [if_pos hp, if_pos hp, abs_of_pos hp]; ring
    · rw [if_neg hp, if_neg hp]; ring
  simp only [analyze_textblob, htot, div_one, ite_self]
  refine ⟨trivial, ?_, ?_, trivial, ?_, ?_⟩
  · intro hp; rw [if_pos hp, if_pos hp]; exact ⟨rfl, rfl⟩
  · intro hp; rw [if_neg hp, if_neg hp]; exact ⟨rfl, rfl⟩
  · intro h0; subst h0; norm_num
  · intro h; rw [if_pos h]

/-- C4 witness: the conversion at polarity 0.6 and subjectivity 0 gives
positive 0.6, neutral 0.4, negative 0 and the label positive. -/
theorem c4_textblob_conversion_witness :
    (-1 ≤ (3 / 5 : ℚ)) ∧ ((3 / 5 : ℚ) ≤ 1) ∧
    (analyze_textblob (3 / 5) 0).positive_score = 3 / 5 ∧
    (analyze_textblob (3 / 5) 0).neutral_score = 2 / 5 ∧
    (analyze_textblob (3 / 5) 0).negative_score = 0 ∧
    (analyze_textblob (3 / 5) 0).sentiment_label = "positive" := by
  refine ⟨by norm_num, by norm_num, ?_⟩
  obtain ⟨hsum, hpos, hneg, hneu, hzero, hlab⟩ :=
    c4_textblob_conversion (3 / 5) 0 (by norm_num) (by norm_num)
  obtain ⟨hp1, hp2⟩ := hpos (by norm_num)
  refine ⟨hp1, ?_, hp2, hlab (by norm_num)⟩
  rw [hneu, abs_of_pos (by norm_num : (0 : ℚ) < 3 / 5)]
  norm_num

/-- C5: analyze_text raises the distinct ValueError (here the Except.error
value naming the unknown model) exactly when the model name is neither
vader nor textblob, and returns a result exactly when the model name is
registered; it never silently defaults to another model. -/
theorem c5_unknown_model_error (vm : String → VaderScores) (tm : String → ℚ × ℚ)
    (text model : String) :
    (analyze_text vm tm text model = Except.error ("Unknown model: " ++ model) ↔
      ¬ (model = "vader" ∨ model = "textblob")) ∧
    ((model = "vader" ∨ model = "textblob") ↔
      ∃ r, analyze_text vm tm text model = Except.ok r) := by
  by_cases h1 : model = "vader"
  · subst h1
    refine ⟨⟨?_, ?_⟩, ⟨?_, ?_⟩⟩
    · intro h; exact absurd h (by simp [analyze_text])
    · intro h; exact absurd (Or.inl rfl) h
    · intro _; exact ⟨_, rfl⟩
    · intro _; exact Or.inl rfl
  · by_cases h2 : model = "textblob"
    · subst h2
      refine ⟨⟨?_, ?_⟩, ⟨?_, ?_⟩⟩
      · intro h; exact absurd h (by simp [analyze_text])
      · intro h; exact absurd (Or.inr rfl) h
      · intro _; exact ⟨_, rfl⟩
      · intro _; exact Or.inr rfl
    · have he : analyze_text vm tm text model =
          Except.error ("Unknown model: " ++ model) := by
        simp [analyze_text, h1, h2]
      refine ⟨⟨?_, ?_⟩, ⟨?_, ?_⟩⟩
      · intro _; simp [h1, h2]
      · intro _; exact he
      · intro h; rcases h with h | h
        · exact absurd h h1
        · exact absurd h h2
      · rintro ⟨r, hr⟩; rw [he] at hr; exact absurd hr (by simp)

/-- C6 counterexample: the claim asserts text_length = 0 for every
whitespace-only text, but on the one-space text analyze_text returns
text_length = 1, the Python len of the text. -/
theorem c6_whitespace_counterexample :
    Except.map (fun r => r.text_length)
      (analyze_text (fun _ => ⟨0, 0, 0, 0⟩) (fun _ => (0, 0)) " " "vader") =
      Except.ok 1 ∧ (1 : Nat) ≠ 0 := ⟨rfl, by decide⟩

/-- C6 amended: for every empty or whitespace-only text and registered model,
analyze_text does not raise and returns word_count = 0 and text_length equal
to the length of the text, which is 0 exactly for the empty text. -/
theorem c6_whitespace_amended (vm : String → VaderScores) (tm : String → ℚ × ℚ)
    (text model : String) (hm : model = "vader" ∨ model = "textblob")
    (hw : ∀ c ∈ text.data, isSpaceChar c = true) :
    ∃ r, analyze_text vm tm text model = Except.ok r ∧
      r.word_count = 0 ∧ r.text_length = text.length ∧
      (text = "" → r.text_length = 0) := by
  have hsplit : py_split (text.length + 1) text.data = [] :=
    py_split_all_space (text.length + 1) text.data hw
  rcases hm with rfl | rfl
  · exact ⟨_, rfl, by simp [hsplit], rfl, fun h => by subst h; rfl⟩
  · exact ⟨_, rfl, by simp [hsplit], rfl, fun h => by subst h; rfl⟩

/-- C6 witness: the amended statement instantiated at the one-space text and
the vader model. -/
theorem c6_whitespace_amended_witness :
    (("vader" : String) = "vader" ∨ ("vader" : String) = "textblob") ∧
    (∀ c ∈ (" " : String).data, isSpaceChar c = true) ∧
    ∃ r, analyze_text (fun _ => ⟨0, 0, 0, 0⟩) (fun _ => (0, 0)) " " "vader" =
        Except.ok r ∧
      r.word_count = 0 ∧ r.text_length = (" " : String).length ∧
      ((" " : String) = "" → r.text_length = 0) :=
  ⟨Or.inl rfl, by decide,
    c6_whitespace_amended (fun _ => ⟨0, 0, 0, 0⟩) (fun _ => (0, 0)) " " "vader"
      (Or.inl rfl) (by decide)⟩

/-- C7: when every response is a 503 and max_retries is 3, _make_request
returns None to the caller instead of raising, and the failed_requests
counter increases by exactly one while requests_made increases by one. -/
theorem c7_all_503_failure (responses : List Nat) (stats : ScraperStats)
    (h : ∀ s ∈ responses, s = 503) :
    make_request 3 responses stats =
      (none,
        { stats with
            requests_made := stats.requests_made + 1
            failed_requests := stats.failed_requests + 1 }) := by
  simp only [make_request, session_request_all_503 3 responses h]

/-- C7 witness: four straight 503 responses against fresh stats. -/
theorem c7_all_503_failure_witness :
    (∀ s ∈ [503, 503, 503, 503], s = 503) ∧
    make_request 3 [503, 503, 503, 503] init_stats =
      (none,
        { init_stats with
            requests_made := init_stats.requests_made + 1
            failed_requests := init_stats.failed_requests + 1 }) :=
  ⟨by decide, c7_all_503_failure [503, 503, 503, 503] init_stats (by decide)⟩

/-- C8 counterexample: for the response sequence 503, 503, 200 with
max_retries 3, the stats record exactly one request attempt, not the three
the claim asserts: the retries happen inside the HTTP session and are never
reflected in requests_made. -/
theorem c8_requests_made_counterexample :
    ((make_request 3 [503, 503, 200] init_stats).2).requests_made = 1 ∧
    ((make_request 3 [503, 503, 200] init_stats).2).requests_made ≠ 3 := by
  constructor <;> decide

/-- C8 amended: for the response sequence 503, 503, 200 with max_retries 3,
_make_request returns the successful 200 response, successful_requests
increases by one, and exactly one request attempt is recorded in
requests_made (internal session retries are not counted in the stats). -/
theorem c8_retry_success_amended (stats : ScraperStats) :
    make_request 3 [503, 503, 200] stats =
      (some 200,
        { stats with
            requests_made := stats.requests_made + 1
            successful_requests := stats.successful_requests + 1 }) := rfl

/-- C9 counterexample: after one request on a fresh scraper, calling
start_scraping leaves requests_made at 1; the claim that counters are reset
to zero at run start is false. -/
theorem c9_start_scraping_counterexample :
    (start_scraping 0 ((make_request 3 [200] init_stats).2)).requests_made = 1 ∧
    (start_scraping 0 ((make_request 3 [200] init_stats).2)).requests_made ≠ 0 := by
  constructor <;> decide

/-- C9 amended: start_scraping only records the start time and leaves every
counter unchanged; the counters are zeroed once, at construction, so counts
from a previous run on the same instance carry into the next run. -/
theorem c9_start_scraping_amended (now : Nat) (stats : ScraperStats) :
    start_scraping now stats = { stats with start_time := some now } ∧
    (start_scraping now stats).requests_made = stats.requests_made ∧
    (start_scraping now stats).successful_requests = stats.successful_requests ∧
    (start_scraping now stats).failed_requests = stats.failed_requests ∧
    (start_scraping now stats).items_scraped = stats.items_scraped ∧
    init_stats.requests_made = 0 ∧ init_stats.successful_requests = 0 ∧
    init_stats.failed_requests = 0 ∧ init_stats.items_scraped = 0 :=
  ⟨rfl, rfl, rfl, rfl, rfl, rfl, rfl, rfl, rfl⟩

/-- C10: every _make_request call increments requests_made by exactly one and
exactly one of successful_requests or failed_requests by exactly one, and
along any sequence of calls from the all-zero initial stats the invariant
requests_made = successful_requests + failed_requests holds. -/
theorem c10_stats_invariant :
    (∀ (mr : Nat) (rs : List Nat) (stats : ScraperStats),
      ((make_request mr rs stats).2).requests_made = stats.requests_made + 1 ∧
      ((((make_request mr rs stats).2).successful_requests = stats.successful_requests + 1 ∧
        ((make_request mr rs stats).2).failed_requests = stats.failed_requests) ∨
       (((make_request mr rs stats).2).failed_requests = stats.failed_requests + 1 ∧
        ((make_request mr rs stats).2).successful_requests = stats.successful_requests))) ∧
    ∀ (mr : Nat) (calls : List (List Nat)),
      (run_calls mr calls).requests_made =
        (run_calls mr calls).successful_requests + (run_calls mr calls).failed_requests :=
  ⟨make_request_step, fun mr calls => run_calls_aux mr calls init_stats rfl⟩

end FinPulse
